import Mathlib

/-!
Verification of the fixai per-turn agent control loop, its guardrails, its
tool invocation layer and its conversation-history compaction, as a shallow
embedding of `backend/app/agent/graph.py`, `backend/app/agent/tools.py` and
`backend/app/api/chat.py`. Machine integers are modelled by `Nat`/`Int`,
Python exceptions by explicit outcome types, and the non-deterministic model
and tool backends by oracle parameters.
-/

set_option maxRecDepth 4000

namespace FixAI

/-! ## Data model: messages (langchain `BaseMessage` shapes used by the code) -/

/-- Message role: `SystemMessage`, `HumanMessage`, `AIMessage`, `ToolMessage`. -/
inductive Role where
  | system
  | user
  | assistant
  | tool
deriving DecidableEq

/-- Message content: either a plain string or a list of content blocks.
For the token estimator only the text-bearing string of each block matters,
so a block is modelled by that string (`str(block.get("text", ...))`). -/
inductive MsgContent where
  | text (s : String)
  | blocks (bs : List String)
deriving DecidableEq

/-- A tool-call request carried by an assistant message: `{id, name, args}`.
`args` is the serialized argument string (`str(args)` in the estimator). -/
structure ToolCallReq where
  id : String
  name : String
  args : String
deriving DecidableEq

/-- A message in the turn state. `tool_call_id` is only meaningful for
`Role.tool` messages; `tool_calls` only for `Role.assistant` messages. -/
structure Msg where
  role : Role
  content : MsgContent
  tool_calls : List ToolCallReq
  tool_call_id : String
deriving DecidableEq

/-! ## Guardrail configuration (`GuardrailConfig`, from `app/config.py`) -/

/-- Guardrail constants of `graph.py` (module-level, from settings). -/
structure Config where
  max_ai_calls : Nat
  max_input_tokens : Nat
  recursion_limit : Nat
  tool_response_max_chars : Nat
  token_estimation_divisor : Nat
deriving DecidableEq

/-! ## Token estimator (`_estimate_tokens`, graph.py lines 40-82) -/

/-- Characters contributed by message content: `len(content)` for a string,
sum of the block text lengths for a block list. -/
def contentChars : MsgContent → Nat
  | .text s => s.length
  | .blocks bs => (bs.map String.length).sum

/-- Characters of one tool-call request: `len(str(args)) + len(str(name))`. -/
def toolCallChars (tc : ToolCallReq) : Nat :=
  tc.args.length + tc.name.length

/-- Characters counted for one message. -/
def msgChars (m : Msg) : Nat :=
  contentChars m.content + (m.tool_calls.map toolCallChars).sum

/-- The running `total_chars` accumulator of `_estimate_tokens`. -/
def total_chars (msgs : List Msg) : Nat :=
  (msgs.map msgChars).sum

/-- Token estimate: `max(0, total_chars // TOKEN_ESTIMATION_DIVISOR)`.
Stated over `Int` so that the `max 0` of the source is kept literally. -/
def _estimate_tokens (divisor : Nat) (msgs : List Msg) : Int :=
  max 0 ((total_chars msgs : Int) / (divisor : Int))

/-- A concrete 400-character message content, for the spec scenario. -/
def fourHundredChars : String := String.mk (List.replicate 400 'a')

/-- A single user message carrying 400 characters of text. -/
def fourHundredCharMsg : Msg :=
  { role := Role.user, content := MsgContent.text fourHundredChars,
    tool_calls := [], tool_call_id := "" }

/-- C6: the token estimate is the floor of total counted characters divided
by the divisor, it is never negative, and a single 400-character message
with divisor 4 estimates to exactly 100 tokens. -/
theorem token_estimate_is_floor_div (divisor : Nat) (hd : 0 < divisor)
    (msgs : List Msg) :
    _estimate_tokens divisor msgs = ((total_chars msgs / divisor : Nat) : Int) ∧
    0 ≤ _estimate_tokens divisor msgs ∧
    _estimate_tokens 4 [fourHundredCharMsg] = 100 := by
  refine ⟨?_, ?_, by decide⟩
  · unfold _estimate_tokens
    rw [← Int.ofNat_ediv]
    exact max_eq_right (Int.ofNat_nonneg _)
  · unfold _estimate_tokens
    exact le_max_left 0 _

/-- Witness for the token-estimate theorem at divisor 4 and the concrete
400-character message from the spec scenario. -/
theorem token_estimate_is_floor_div_witness :
    _estimate_tokens 4 [fourHundredCharMsg] =
      ((total_chars [fourHundredCharMsg] / 4 : Nat) : Int) ∧
    0 ≤ _estimate_tokens 4 [fourHundredCharMsg] :=
  ⟨(token_estimate_is_floor_div 4 (by decide) [fourHundredCharMsg]).1,
   (token_estimate_is_floor_div 4 (by decide) [fourHundredCharMsg]).2.1⟩

/-! ## Tool registry (`ALL_TOOLS`, tools.py) -/

/-- A tool of the static registry: its unique name and the service whose
client it requires (the `service` argument each tool passes to
`_handle_error`). -/
structure ToolDef where
  name : String
  service : String
deriving DecidableEq

/-- The 14 tools of `ALL_TOOLS` in tools.py, with their services. -/
def ALL_TOOLS : List ToolDef :=
  [ { name := "metrics_get_overview", service := "Metrics Explorer" },
    { name := "metrics_search_dashboards", service := "Metrics Explorer" },
    { name := "metrics_explore_dashboard", service := "Metrics Explorer" },
    { name := "metrics_get_variable_values", service := "Metrics Explorer" },
    { name := "metrics_query", service := "Metrics Explorer" },
    { name := "logs_get_overview", service := "Logs Explorer" },
    { name := "logs_search_sources", service := "Logs Explorer" },
    { name := "logs_search", service := "Logs Explorer" },
    { name := "code_search_repositories", service := "Code Parser" },
    { name := "code_get_repo_info", service := "Code Parser" },
    { name := "code_search_entry_points", service := "Code Parser" },
    { name := "code_get_flows", service := "Code Parser" },
    { name := "code_search_files", service := "Code Parser" },
    { name := "code_get_file", service := "Code Parser" } ]

/-! ## Tool error normalization (tools.py `_error_response`, `_handle_error`) -/

/-- Escape one character the way `json.dumps` escapes string data for the
inputs arising here (quote and backslash). -/
def jsonEscapeChar (c : Char) : String :=
  if c = '"' then "\\\"" else if c = '\\' then "\\\\" else String.singleton c

/-- Escape a string for embedding in a JSON string literal. -/
def jsonEscape (s : String) : String :=
  String.join (s.toList.map jsonEscapeChar)

/-- A JSON string literal. -/
def jsonStr (s : String) : String :=
  "\"" ++ jsonEscape s ++ "\""

/-- `_error_response(error_type, message, service, **extra)`: the
`json.dumps` of the flat object, in insertion order, with `json.dumps`
default separators. Extra values are already-rendered JSON values. -/
def _error_response (error_type message service : String)
    (extra : List (String × String)) : String :=
  "\x7b\"error\": " ++ jsonStr error_type ++
    ", \"message\": " ++ jsonStr message ++
    ", \"service\": " ++ jsonStr service ++
    String.join (extra.map (fun kv => ", " ++ jsonStr kv.1 ++ ": " ++ kv.2)) ++
    "\x7d"

/-- The exceptions distinguished by `_handle_error`:
`ServiceNotConfiguredError`, `httpx.HTTPStatusError` (with status and
response text) and everything else (with its string form). -/
inductive Exc where
  | serviceNotConfigured (msg : String)
  | httpStatusError (status : Int) (body : String)
  | other (msg : String)
deriving DecidableEq

/-- `_handle_error(e, service)` from tools.py lines 100-106. -/
def _handle_error (e : Exc) (service : String) : String :=
  match e with
  | .serviceNotConfigured msg =>
      _error_response "SERVICE_NOT_CONFIGURED" msg service []
  | .httpStatusError status body =>
      _error_response "API_ERROR" ("HTTP " ++ toString status ++ ": " ++ body.take 300)
        service [("status_code", toString status)]
  | .other msg =>
      _error_response "UNKNOWN_ERROR" msg service []

/-- The `try ... except Exception as e: return _handle_error(e, service)`
wrapper every tool body in tools.py follows: a failing body is converted to
the structured error string, a succeeding body returns its string. -/
def tool_try (service : String) (body : Except Exc String) : String :=
  match body with
  | .ok s => s
  | .error e => _handle_error e service

/-! ## Tool node (`tool_node`, graph.py lines 318-348) -/

/-- Result of `await tool_fn.ainvoke(tool_args)` as seen by `tool_node`:
either a returned string (tools internally catch their own failures via
`tool_try`), or an exception escaping `ainvoke` itself, caught by the
`except` of `tool_node`. -/
inductive InvokeResult where
  | ok (s : String)
  | raised (msg : String)
deriving DecidableEq

/-- The fixed truncation marker appended by `tool_node` (graph.py line 342). -/
def TRUNCATION_MARKER : String := "\n\n... [truncated – use more specific filters]"

/-- Hard cap applied by `tool_node` to a string tool result. -/
def truncate_result (max_chars : Nat) (s : String) : String :=
  if s.length > max_chars then s.take max_chars ++ TRUNCATION_MARKER else s

/-- Build a `ToolMessage(content=..., tool_call_id=...)`. -/
def toolMsg (content : String) (tcid : String) : Msg :=
  { role := Role.tool, content := MsgContent.text content,
    tool_calls := [], tool_call_id := tcid }

/-- Processing of a single requested tool call by `tool_node`: unknown names
get a synthesized message, returned strings are truncated, raised errors are
converted to a `Tool error:` message; in all cases exactly one `ToolMessage`
correlated by the request id is produced. -/
def run_tool_call (cfg : Config) (oracle : ToolCallReq → InvokeResult)
    (tc : ToolCallReq) : Msg :=
  if (ALL_TOOLS.find? (fun t => t.name == tc.name)).isNone then
    toolMsg ("Unknown tool: " ++ tc.name) tc.id
  else
    match oracle tc with
    | .ok result => toolMsg (truncate_result cfg.tool_response_max_chars result) tc.id
    | .raised e => toolMsg ("Tool error: " ++ e) tc.id

/-- `tool_node`: one tool-result message per requested tool call of the last
assistant message, in request order. -/
def tool_node (cfg : Config) (oracle : ToolCallReq → InvokeResult)
    (last : Msg) : List Msg :=
  last.tool_calls.map (run_tool_call cfg oracle)

/-! ## Agent node (`agent_node`, graph.py lines 231-315) -/

/-- The model client response: content plus zero or more tool-call
requests. Mirrors the `AIMessage` returned by `llm.invoke`. -/
structure ModelResponse where
  content : MsgContent
  tool_calls : List ToolCallReq
deriving DecidableEq

/-- Python truthiness of message content: the empty string and the empty
block list are falsy (`response.content or fallback`). -/
def MsgContent.isFalsy : MsgContent → Bool
  | .text s => s.isEmpty
  | .blocks bs => bs.isEmpty

/-- The fixed safety-net assistant text of the `call_count > MAX_AI_CALLS`
branch (graph.py lines 254-257). -/
def LIMIT_MESSAGE : String :=
  "**Investigation limit reached** — see findings above. " ++
    "Start a follow-up conversation for deeper investigation."

/-- The fallback content substituted when stripping tool calls from a
synthesis response with falsy content (graph.py line 296). -/
def SYNTHESIS_FALLBACK : String := "Investigation complete. See findings above."

/-- The assistant message appended for a model response. -/
def respToMsg (r : ModelResponse) : Msg :=
  { role := Role.assistant, content := r.content,
    tool_calls := r.tool_calls, tool_call_id := "" }

/-- Defensive stripping applied to the synthesis response (graph.py lines
293-298): only when the response still carries tool calls is it replaced by
a tool-call-free copy, whose content falls back to 'SYNTHESIS_FALLBACK' when
the original content is falsy. -/
def synthesis_strip (r : ModelResponse) : ModelResponse :=
  if !r.tool_calls.isEmpty then
    { content := if r.content.isFalsy then MsgContent.text SYNTHESIS_FALLBACK
                 else r.content,
      tool_calls := [] }
  else r

/-- Turn state threaded through the graph: the message channel and the
`ai_call_count` counter (the org-override fields are constant per turn and
do not affect the verified control flow). -/
structure AgentSt where
  messages : List Msg
  ai_call_count : Nat
deriving DecidableEq

/-- `force_synthesis = (call_count == MAX_AI_CALLS) or (token_est > MAX_INPUT_TOKENS)`
(graph.py lines 263-266). -/
def force_synthesis (cfg : Config) (call_count : Nat) (token_est : Int) : Bool :=
  call_count == cfg.max_ai_calls || token_est > (cfg.max_input_tokens : Int)

/-- `agent_node(state)`, given the model response as an oracle. The message
channel uses the `add_messages` reducer, so the returned messages are
appended. `call_count` is `state.get("ai_call_count", 0) + 1` inlined. -/
def agent_node (cfg : Config) (st : AgentSt) (resp : ModelResponse) : AgentSt :=
  if st.ai_call_count + 1 > cfg.max_ai_calls then
    { messages := st.messages ++
        [{ role := Role.assistant, content := MsgContent.text LIMIT_MESSAGE,
           tool_calls := [], tool_call_id := "" }],
      ai_call_count := st.ai_call_count + 1 }
  else if force_synthesis cfg (st.ai_call_count + 1)
      (_estimate_tokens cfg.token_estimation_divisor st.messages) then
    { messages := st.messages ++ [respToMsg (synthesis_strip resp)],
      ai_call_count := st.ai_call_count + 1 }
  else
    { messages := st.messages ++ [respToMsg resp],
      ai_call_count := st.ai_call_count + 1 }

/-- How `agent_node` invokes the model for a given entry state: not at all
(safety-net branch), with no tools bound (`llm.invoke(synthesis_msgs)`), or
with the full registry bound (`llm.bind_tools(ALL_TOOLS)`). -/
inductive Invocation where
  | noCall
  | call (tools : List ToolDef)
deriving DecidableEq

/-- The model-invocation decision of `agent_node` (graph.py lines 239-309),
as a function of the entry state. -/
def agent_invocation (cfg : Config) (st : AgentSt) : Invocation :=
  if st.ai_call_count + 1 > cfg.max_ai_calls then Invocation.noCall
  else if force_synthesis cfg (st.ai_call_count + 1)
      (_estimate_tokens cfg.token_estimation_divisor st.messages) then
    Invocation.call []
  else Invocation.call ALL_TOOLS

/-! ## Transition decision (`should_continue`, graph.py lines 351-370) -/

/-- Nodes of the compiled graph, plus the `END` terminal. -/
inductive Node where
  | agent
  | tools
  | terminal
deriving DecidableEq

/-- `isinstance(last, AIMessage) and bool(last.tool_calls)`. -/
def msg_has_tool_calls (m : Msg) : Bool :=
  m.role == Role.assistant && !m.tool_calls.isEmpty

/-- `should_continue(state)`: route to the tool node only when the last
message carries tool calls and the call budget is not exhausted. -/
def should_continue (cfg : Config) (st : AgentSt) : Node :=
  match st.messages.getLast? with
  | none => Node.terminal
  | some last =>
      if msg_has_tool_calls last then
        if st.ai_call_count ≥ cfg.max_ai_calls then Node.terminal
        else Node.tools
      else Node.terminal

/-- Effect of `tool_node` on the turn state: the produced tool messages are
appended by the `add_messages` reducer; `ai_call_count` is untouched. -/
def tool_node_apply (cfg : Config) (oracle : ToolCallReq → InvokeResult)
    (st : AgentSt) : AgentSt :=
  match st.messages.getLast? with
  | some last => { st with messages := st.messages ++ tool_node cfg oracle last }
  | none => st

/-- One step of the compiled graph: the agent node runs (with an arbitrary
model response) and `should_continue` routes the result; or the tool node
runs (with arbitrary tool outcomes) and control returns to the agent via the
unconditional `tools → agent` edge. -/
inductive Step (cfg : Config) : Node × AgentSt → Node × AgentSt → Prop
  | model (st : AgentSt) (resp : ModelResponse) :
      Step cfg (Node.agent, st)
        (should_continue cfg (agent_node cfg st resp), agent_node cfg st resp)
  | tool (st : AgentSt) (oracle : ToolCallReq → InvokeResult) :
      Step cfg (Node.tools, st) (Node.agent, tool_node_apply cfg oracle st)

/-- Reachability in the graph from a given entry configuration. -/
inductive Reachable (cfg : Config) (init : Node × AgentSt) : Node × AgentSt → Prop
  | refl : Reachable cfg init init
  | step {a b : Node × AgentSt} :
      Reachable cfg init a → Step cfg a b → Reachable cfg init b

/-! ## Event stream publisher (`run_agent`, graph.py lines 391-686)

The `astream_events` stream is abstracted as a list of internal events whose
payloads are the fields `run_agent` actually reads. A run either consumes
the whole stream, is cancelled before iteration `k` (the `cancel_event`
check at the top of the loop), or raises inside the streaming loop before
iteration `k` (caught by the outer `except`). -/

/-- Internal graph-stream events read by `run_agent`. For
`on_chat_model_end` and `on_chain_end` the payload is the extracted
assistant text, empty when absent or falsy; for `on_chat_model_stream` it is
the chunk content when it is a string. -/
inductive InEvent where
  | chatModelStart
  | chatModelStream (chunk : Option String)
  | chatModelEnd (content : String)
  | toolStart (name : String)
  | toolEnd (name : String) (output : String)
  | chainEnd (content : String)
deriving DecidableEq

/-- External events yielded by `run_agent` (payloads reduced to what the
claims mention). -/
inductive OutEvent where
  | stats (final : Bool)
  | token (text : String)
  | tool_start (name : String)
  | tool_end (name : String)
  | done (text : String)
  | error (msg : String)
  | trace
deriving DecidableEq

/-- Events yielded inside the streaming loop for one internal event. -/
def emitFor : InEvent → List OutEvent
  | .chatModelStart => [OutEvent.stats false]
  | .chatModelStream (some chunk) => [OutEvent.token chunk]
  | .chatModelStream none => []
  | .chatModelEnd _ => []
  | .toolStart n => [OutEvent.tool_start n]
  | .toolEnd n _ => [OutEvent.tool_end n]
  | .chainEnd _ => []

/-- All events yielded by the streaming loop over a consumed prefix. -/
def loop_out (events : List InEvent) : List OutEvent :=
  (events.map emitFor).flatten

/-- The accumulator variables of `run_agent` that decide the final text. -/
structure RunAcc where
  last_ai_content : String
  chain_end_response : String
deriving DecidableEq

/-- Initial accumulator: both strings empty. -/
def accInit : RunAcc := { last_ai_content := "", chain_end_response := "" }

/-- Accumulator update per internal event: `on_chat_model_end` overwrites
`last_ai_content` when truthy; `on_chain_end` overwrites
`chain_end_response` when truthy. -/
def stepAcc (a : RunAcc) : InEvent → RunAcc
  | .chatModelEnd c => if c.isEmpty then a else { a with last_ai_content := c }
  | .chainEnd c => if c.isEmpty then a else { a with chain_end_response := c }
  | _ => a

/-- Suffix appended to partial text when the run is stopped by the user. -/
def STOP_SUFFIX : String :=
  "\n\n---\n*Investigation stopped by user. Above is a partial summary " ++
    "based on data collected so far.*"

/-- Message used when the run was stopped before any text was gathered. -/
def STOPPED_EMPTY : String :=
  "Investigation stopped by user before any results were collected."

/-- Apology used when no final text could be selected at all. -/
def NO_RESPONSE : String := "I was unable to generate a response. Please try again."

/-- Final-text selection (graph.py lines 630-638): prefer the last observed
model-call content, fall back to the chain-end content; on cancellation,
suffix the stripped text or use the dedicated stopped message. -/
def final_response (stopped : Bool) (a : RunAcc) : String :=
  let fr := if a.last_ai_content.isEmpty then a.chain_end_response
            else a.last_ai_content
  if stopped then
    if fr.trim.isEmpty then STOPPED_EMPTY else fr.trim ++ STOP_SUFFIX
  else fr

/-- The text carried by the single `done` event (graph.py lines 661-664). -/
def done_text (stopped : Bool) (a : RunAcc) : String :=
  if (final_response stopped a).isEmpty then NO_RESPONSE
  else final_response stopped a

/-- How one turn of `run_agent` ends: normally, cancelled before processing
event `k`, or failing inside the loop before processing event `k`. -/
inductive RunOutcome where
  | ok
  | cancelled (k : Nat)
  | failed (k : Nat) (msg : String)

/-- The full external event sequence of one `run_agent` turn. -/
def run_agent_events (capture_full_trace : Bool) (events : List InEvent)
    (o : RunOutcome) : List OutEvent :=
  match o with
  | .failed k msg => loop_out (events.take k) ++ [OutEvent.error msg]
  | .ok =>
      loop_out events ++
        [OutEvent.stats true, OutEvent.done (done_text false (events.foldl stepAcc accInit))] ++
        (if capture_full_trace then [OutEvent.trace] else [])
  | .cancelled k =>
      loop_out (events.take k) ++
        [OutEvent.stats true,
         OutEvent.done (done_text true ((events.take k).foldl stepAcc accInit))] ++
        (if capture_full_trace then [OutEvent.trace] else [])

/-- Terminal events of the event contract. -/
def isTerminal : OutEvent → Bool
  | .done _ => true
  | .error _ => true
  | _ => false

/-! ## History compactor (`_build_conversation_history`, chat.py lines 60-116) -/

/-- A persisted conversation message row: its role string and content. -/
structure StoredMsg where
  role : String
  content : String
deriving DecidableEq

/-- The compaction-relevant columns of a conversation row. -/
structure Conversation where
  messages : List StoredMsg
  conversation_summary : Option String
  conversation_summary_message_count : Option Nat
deriving DecidableEq

/-- Last 2 user + 2 assistant messages kept verbatim (chat.py line 33). -/
def RECENT_MESSAGE_COUNT : Nat := 4

/-- Minimum stored messages before summarization kicks in (chat.py line 34). -/
def MIN_MESSAGES_FOR_SUMMARY : Nat := 6

/-- `_message_to_langchain`: user and assistant rows convert; every other
role yields `None` and is dropped by the callers. -/
def _message_to_langchain (m : StoredMsg) : Option Msg :=
  if m.role == "user" then
    some { role := Role.user, content := MsgContent.text m.content,
           tool_calls := [], tool_call_id := "" }
  else if m.role == "assistant" then
    some { role := Role.assistant, content := MsgContent.text m.content,
           tool_calls := [], tool_call_id := "" }
  else none

/-- Python `str` of an optional value interpolated in an f-string. -/
def pyStrOpt : Option String → String
  | some s => s
  | none => "None"

/-- The synthetic system message carrying the stored summary. -/
def summary_message (summary : Option String) : Msg :=
  { role := Role.system,
    content := MsgContent.text ("Previous conversation summary:\n" ++ pyStrOpt summary),
    tool_calls := [], tool_call_id := "" }

/-- The local `existing = all_messages[:-1]` of
`_build_conversation_history`: the stored messages before the new user one. -/
def existingOf (conv : Conversation) : List StoredMsg :=
  conv.messages.dropLast

/-- The local `to_summarize = existing[:-RECENT_MESSAGE_COUNT]`. -/
def olderOf (conv : Conversation) : List StoredMsg :=
  (existingOf conv).take ((existingOf conv).length - RECENT_MESSAGE_COUNT)

/-- The local `recent = existing[-RECENT_MESSAGE_COUNT:]`. -/
def recentOf (conv : Conversation) : List StoredMsg :=
  (existingOf conv).drop ((existingOf conv).length - RECENT_MESSAGE_COUNT)

/-- The `need_summary` condition of chat.py lines 98-102: the summary is
unset, or its coverage count is unset, or the coverage count is smaller
than the number of messages being summarized. -/
def needSummaryOf (conv : Conversation) : Bool :=
  conv.conversation_summary.isNone ||
  conv.conversation_summary_message_count.isNone ||
  decide (conv.conversation_summary_message_count.getD 0 < (olderOf conv).length)

/-- `_build_conversation_history(conv, new_user_content)`, with the
summarization model call abstracted as the `summarizer` oracle. Returns the
history passed to the agent and the conversation row as mutated. -/
def _build_conversation_history (summarizer : List StoredMsg → String)
    (conv : Conversation) : List Msg × Conversation :=
  if (existingOf conv).length < MIN_MESSAGES_FOR_SUMMARY then
    ((existingOf conv).filterMap _message_to_langchain, conv)
  else if (olderOf conv).isEmpty then
    ((recentOf conv).filterMap _message_to_langchain, conv)
  else
    let conv2 :=
      if needSummaryOf conv then
        { conv with conversation_summary := some (summarizer (olderOf conv)),
                    conversation_summary_message_count := some (olderOf conv).length }
      else conv
    (summary_message conv2.conversation_summary ::
       (recentOf conv).filterMap _message_to_langchain, conv2)

/-- Conversation states reachable across turns: a fresh conversation has no
summary, and each turn may replace the message list (messages are appended
by the API between turns) before `_build_conversation_history` runs. -/
inductive ReachableConv : Conversation → Prop
  | init (msgs : List StoredMsg) :
      ReachableConv { messages := msgs, conversation_summary := none,
                      conversation_summary_message_count := none }
  | step (summarizer : List StoredMsg → String) (msgs : List StoredMsg)
      {conv : Conversation} :
      ReachableConv conv →
      ReachableConv
        (_build_conversation_history summarizer { conv with messages := msgs }).2

/-! ## Claim theorems -/

/-- The `force_synthesis` boolean unfolds to the expected disjunction. -/
lemma force_synthesis_iff (cfg : Config) (cc : Nat) (est : Int) :
    force_synthesis cfg cc est = true ↔
      (cc = cfg.max_ai_calls ∨ est > (cfg.max_input_tokens : Int)) := by
  simp [force_synthesis]

/-- C1: for every model-call step whose incremented call count is within
budget, the model is invoked with no tool schemas bound exactly when the
incremented count equals `max_ai_calls` or the token estimate over the
current messages exceeds `max_input_tokens`; otherwise it is invoked with
the full tool registry bound. -/
theorem agent_tool_binding (cfg : Config) (st : AgentSt)
    (h : st.ai_call_count + 1 ≤ cfg.max_ai_calls) :
    (agent_invocation cfg st = Invocation.call [] ↔
      (st.ai_call_count + 1 = cfg.max_ai_calls ∨
        _estimate_tokens cfg.token_estimation_divisor st.messages >
          (cfg.max_input_tokens : Int))) ∧
    (¬(st.ai_call_count + 1 = cfg.max_ai_calls ∨
        _estimate_tokens cfg.token_estimation_divisor st.messages >
          (cfg.max_input_tokens : Int)) →
      agent_invocation cfg st = Invocation.call ALL_TOOLS) := by
  have hnot : ¬ st.ai_call_count + 1 > cfg.max_ai_calls := by omega
  unfold agent_invocation
  rw [if_neg hnot]
  by_cases hf : force_synthesis cfg (st.ai_call_count + 1)
      (_estimate_tokens cfg.token_estimation_divisor st.messages) = true
  · rw [if_pos hf]
    have hd := (force_synthesis_iff cfg (st.ai_call_count + 1)
      (_estimate_tokens cfg.token_estimation_divisor st.messages)).mp hf
    exact ⟨⟨fun _ => hd, fun _ => rfl⟩, fun hn => absurd hd hn⟩
  · rw [if_neg hf]
    refine ⟨⟨fun he => ?_, fun hd => ?_⟩, fun _ => rfl⟩
    · exact absurd (congrArg (fun i => match i with
        | Invocation.call ts => ts
        | Invocation.noCall => []) he) (by decide)
    · exact absurd ((force_synthesis_iff cfg _ _).mpr hd) hf

/-- The default guardrail configuration (config.py defaults). -/
def cfg0 : Config :=
  { max_ai_calls := 15, max_input_tokens := 80000, recursion_limit := 35,
    tool_response_max_chars := 12000, token_estimation_divisor := 4 }

/-- Entry state of the last allowed model call. -/
def c1_state : AgentSt := { messages := [], ai_call_count := 14 }

/-- Witness for the tool-binding theorem: at the last allowed call under
the default configuration, the model is invoked without tools. -/
theorem agent_tool_binding_witness :
    agent_invocation cfg0 c1_state = Invocation.call [] :=
  (agent_tool_binding cfg0 c1_state (by decide)).1.mpr (Or.inl (by decide))

/-- Entry state for the forced-synthesis counterexample. -/
def c9_state : AgentSt :=
  { messages := [{ role := Role.user, content := MsgContent.text "hi",
                   tool_calls := [], tool_call_id := "" }],
    ai_call_count := 14 }

/-- A synthesis response with empty content and no tool calls. -/
def c9_resp : ModelResponse := { content := MsgContent.text "", tool_calls := [] }

/-- C9 counterexample: at a forced-synthesis call whose response has empty
content but no tool-call requests, the appended assistant message keeps the
empty content — the fixed fallback text is not substituted. -/
theorem synthesis_fallback_counterexample :
    force_synthesis cfg0 (c9_state.ai_call_count + 1)
      (_estimate_tokens cfg0.token_estimation_divisor c9_state.messages) = true ∧
    (agent_node cfg0 c9_state c9_resp).messages.getLast? =
      some { role := Role.assistant, content := MsgContent.text "",
             tool_calls := [], tool_call_id := "" } ∧
    MsgContent.text "" ≠ MsgContent.text SYNTHESIS_FALLBACK := by
  decide

/-- C9 amended: at every forced-synthesis call within budget, tool-call
requests are discarded from the appended assistant message, and the fixed
fallback text is substituted exactly when the response carried tool-call
requests and falsy content; a response without tool-call requests is
appended with its content unchanged. -/
theorem synthesis_strip_behavior (cfg : Config) (st : AgentSt)
    (resp : ModelResponse)
    (hle : st.ai_call_count + 1 ≤ cfg.max_ai_calls)
    (hforce : force_synthesis cfg (st.ai_call_count + 1)
      (_estimate_tokens cfg.token_estimation_divisor st.messages) = true) :
    (agent_node cfg st resp).messages =
      st.messages ++ [respToMsg (synthesis_strip resp)] ∧
    (respToMsg (synthesis_strip resp)).tool_calls = [] ∧
    (resp.tool_calls ≠ [] → resp.content.isFalsy = true →
      (respToMsg (synthesis_strip resp)).content = MsgContent.text SYNTHESIS_FALLBACK) ∧
    (resp.tool_calls ≠ [] → resp.content.isFalsy = false →
      (respToMsg (synthesis_strip resp)).content = resp.content) ∧
    (resp.tool_calls = [] →
      (respToMsg (synthesis_strip resp)).content = resp.content) := by
  have hnot : ¬ st.ai_call_count + 1 > cfg.max_ai_calls := by omega
  refine ⟨?_, ?_, ?_, ?_, ?_⟩
  · unfold agent_node
    rw [if_neg hnot, if_pos hforce]
  · unfold synthesis_strip respToMsg
    rcases htc : resp.tool_calls with _ | ⟨t, ts⟩ <;> simp [htc]
  · intro htc hfal
    unfold synthesis_strip respToMsg
    rcases h : resp.tool_calls with _ | ⟨t, ts⟩
    · exact absurd h htc
    · simp [h, hfal]
  · intro htc hfal
    unfold synthesis_strip respToMsg
    rcases h : resp.tool_calls with _ | ⟨t, ts⟩
    · exact absurd h htc
    · simp [h, hfal]
  · intro htc
    unfold synthesis_strip respToMsg
    simp [htc]

/-- A synthesis response still carrying a tool-call request. -/
def c9w_resp : ModelResponse :=
  { content := MsgContent.text "",
    tool_calls := [{ id := "tc9", name := "logs_search", args := "x" }] }

/-- Witness for the amended synthesis behavior: at the last allowed call the
response message is appended stripped of its tool calls. -/
theorem synthesis_strip_behavior_witness :
    (agent_node cfg0 c9_state c9w_resp).messages =
      c9_state.messages ++ [respToMsg (synthesis_strip c9w_resp)] :=
  (synthesis_strip_behavior cfg0 c9_state c9w_resp (by decide) (by decide)).1

/-- C5: a successful tool result longer than `tool_response_max_chars` is
appended as exactly its first `tool_response_max_chars` characters followed
by the fixed truncation marker; a result within the cap is appended
unchanged. -/
theorem tool_result_truncation (cfg : Config)
    (oracle : ToolCallReq → InvokeResult) (tc : ToolCallReq) (s : String)
    (hknown : (ALL_TOOLS.find? (fun t => t.name == tc.name)).isSome = true)
    (hok : oracle tc = InvokeResult.ok s) :
    (s.length > cfg.tool_response_max_chars →
      run_tool_call cfg oracle tc =
        toolMsg (s.take cfg.tool_response_max_chars ++ TRUNCATION_MARKER) tc.id) ∧
    (s.length ≤ cfg.tool_response_max_chars →
      run_tool_call cfg oracle tc = toolMsg s tc.id) := by
  have hne : ¬ (ALL_TOOLS.find? (fun t => t.name == tc.name)).isNone = true := by
    rcases hfind : ALL_TOOLS.find? (fun t => t.name == tc.name) with _ | t
    · rw [hfind] at hknown; exact absurd hknown (by decide)
    · rw [hfind]; simp
  unfold run_tool_call
  rw [if_neg hne]
  simp only [hok]
  unfold truncate_result
  constructor
  · intro hgt
    rw [if_pos hgt]
  · intro hle
    rw [if_neg (by omega)]

/-- A configuration with a tiny tool-response cap for the witness. -/
def c5_cfg : Config :=
  { max_ai_calls := 15, max_input_tokens := 80000, recursion_limit := 35,
    tool_response_max_chars := 5, token_estimation_divisor := 4 }

/-- A concrete tool-call request for the truncation witness. -/
def c5_tc : ToolCallReq := { id := "call1", name := "logs_search", args := "x" }

/-- A tool oracle returning an 8-character result. -/
def c5_oracle : ToolCallReq → InvokeResult := fun _ => InvokeResult.ok "abcdefgh"

/-- Witness for the truncation theorem: an 8-character result with a cap of
5 is appended as its first 5 characters plus the marker. -/
theorem tool_result_truncation_witness :
    run_tool_call c5_cfg c5_oracle c5_tc =
      toolMsg (String.take "abcdefgh" 5 ++ TRUNCATION_MARKER) "call1" :=
  (tool_result_truncation c5_cfg c5_oracle c5_tc "abcdefgh" (by decide) rfl).1
    (by decide)

/-- `agent_node` always increments the call counter by exactly one. -/
lemma agent_node_count (cfg : Config) (st : AgentSt) (resp : ModelResponse) :
    (agent_node cfg st resp).ai_call_count = st.ai_call_count + 1 := by
  unfold agent_node
  split_ifs <;> rfl

/-- The tool node leaves the call counter untouched. -/
lemma tool_node_apply_count (cfg : Config) (oracle : ToolCallReq → InvokeResult)
    (st : AgentSt) : (tool_node_apply cfg oracle st).ai_call_count = st.ai_call_count := by
  unfold tool_node_apply
  rcases hl : st.messages.getLast? with _ | last <;> rfl

/-- `should_continue` never routes back to the agent node directly. -/
lemma should_continue_ne_agent (cfg : Config) (st : AgentSt) :
    should_continue cfg st ≠ Node.agent := by
  unfold should_continue
  rcases hl : st.messages.getLast? with _ | last
  · simp
  · by_cases h1 : msg_has_tool_calls last = true
    · by_cases h2 : st.ai_call_count ≥ cfg.max_ai_calls <;> simp [h1, h2]
    · simp [h1]

/-- `should_continue` routes to the tool node only below the call budget. -/
lemma should_continue_eq_tools (cfg : Config) (st : AgentSt)
    (h : should_continue cfg st = Node.tools) :
    st.ai_call_count < cfg.max_ai_calls := by
  unfold should_continue at h
  rcases hl : st.messages.getLast? with _ | last
  · rw [hl] at h
    simp at h
  · rw [hl] at h
    by_cases h1 : msg_has_tool_calls last = true
    · by_cases h2 : st.ai_call_count ≥ cfg.max_ai_calls
      · simp [h1, h2] at h
      · omega
    · simp [h1] at h

/-- The counter invariant: the call count never exceeds the budget, and on
entry to the agent or tool node it is strictly below it. -/
def CountInv (cfg : Config) (p : Node × AgentSt) : Prop :=
  p.2.ai_call_count ≤ cfg.max_ai_calls ∧
    ((p.1 = Node.agent ∨ p.1 = Node.tools) →
      p.2.ai_call_count < cfg.max_ai_calls)

/-- One graph step preserves the counter invariant. -/
lemma step_preserves_CountInv (cfg : Config) {a b : Node × AgentSt}
    (hs : Step cfg a b) (ha : CountInv cfg a) : CountInv cfg b := by
  cases hs with
  | model st resp =>
      have hlt2 : st.ai_call_count < cfg.max_ai_calls := ha.2 (Or.inl rfl)
      have hc := agent_node_count cfg st resp
      refine ⟨?_, ?_⟩
      · show (agent_node cfg st resp).ai_call_count ≤ cfg.max_ai_calls
        omega
      · intro hn
        show (agent_node cfg st resp).ai_call_count < cfg.max_ai_calls
        cases hn with
        | inl h => exact absurd h (should_continue_ne_agent cfg _)
        | inr h => exact should_continue_eq_tools cfg _ h
  | tool st oracle =>
      have hlt2 : st.ai_call_count < cfg.max_ai_calls := ha.2 (Or.inr rfl)
      have hc := tool_node_apply_count cfg oracle st
      refine ⟨?_, fun _ => ?_⟩
      · show (tool_node_apply cfg oracle st).ai_call_count ≤ cfg.max_ai_calls
        omega
      · show (tool_node_apply cfg oracle st).ai_call_count < cfg.max_ai_calls
        omega

/-- The counter invariant holds in every reachable graph configuration. -/
lemma reachable_CountInv (cfg : Config) (init : Node × AgentSt)
    (hinit : CountInv cfg init) :
    ∀ p, Reachable cfg init p → CountInv cfg p := by
  intro p h
  induction h with
  | refl => exact hinit
  | step _ hs ih => exact step_preserves_CountInv cfg hs ih

/-- C2: from the initial state with `ai_call_count = 0` (and at least one
allowed call), every reachable state has a call count within
`max_ai_calls`, each model invocation increments it by exactly one, and on
entry to the agent node the incremented count is still within budget, so
the safety-net branch for `ai_call_count > max_ai_calls` is never taken. -/
theorem ai_call_count_invariant (cfg : Config) (h1 : 1 ≤ cfg.max_ai_calls)
    (msgs0 : List Msg) (n : Node) (st : AgentSt)
    (hr : Reachable cfg
      (Node.agent, { messages := msgs0, ai_call_count := 0 }) (n, st)) :
    st.ai_call_count ≤ cfg.max_ai_calls ∧
    (∀ resp, (agent_node cfg st resp).ai_call_count = st.ai_call_count + 1) ∧
    (n = Node.agent →
      st.ai_call_count + 1 ≤ cfg.max_ai_calls ∧
      agent_invocation cfg st ≠ Invocation.noCall) := by
  have hinit : CountInv cfg
      (Node.agent, { messages := msgs0, ai_call_count := 0 }) :=
    ⟨Nat.zero_le _, fun _ => h1⟩
  have hinv := reachable_CountInv cfg _ hinit _ hr
  obtain ⟨hle, hlt⟩ := hinv
  refine ⟨hle, fun resp => agent_node_count cfg st resp, fun hn => ?_⟩
  have hstrict : st.ai_call_count < cfg.max_ai_calls := hlt (Or.inl hn)
  refine ⟨by omega, ?_⟩
  unfold agent_invocation
  rw [if_neg (by omega : ¬ st.ai_call_count + 1 > cfg.max_ai_calls)]
  split_ifs <;> decide

/-- Witness for the call-count invariant at the initial state of the
default configuration. -/
theorem ai_call_count_invariant_witness :
    ({ messages := [], ai_call_count := 0 } : AgentSt).ai_call_count ≤
      cfg0.max_ai_calls ∧
    (∀ resp, (agent_node cfg0 { messages := [], ai_call_count := 0 }
        resp).ai_call_count =
      ({ messages := [], ai_call_count := 0 } : AgentSt).ai_call_count + 1) ∧
    (Node.agent = Node.agent →
      ({ messages := [], ai_call_count := 0 } : AgentSt).ai_call_count + 1 ≤
        cfg0.max_ai_calls ∧
      agent_invocation cfg0 { messages := [], ai_call_count := 0 } ≠
        Invocation.noCall) :=
  ai_call_count_invariant cfg0 (by decide) [] Node.agent
    { messages := [], ai_call_count := 0 } Reachable.refl

/-- Every produced tool message carries the tool role and the id of the
request it answers. -/
lemma run_tool_call_shape (cfg : Config) (oracle : ToolCallReq → InvokeResult)
    (tc : ToolCallReq) :
    (run_tool_call cfg oracle tc).role = Role.tool ∧
    (run_tool_call cfg oracle tc).tool_call_id = tc.id := by
  unfold run_tool_call
  split_ifs with h
  · exact ⟨rfl, rfl⟩
  · rcases ho : oracle tc with s | e <;> simp only [ho] <;> exact ⟨rfl, rfl⟩

/-- C4: tool execution produces exactly one tool-result message per
requested call, correlated by `tool_call_id`, for every outcome — failures
are converted, never raised; a tool whose service client is not configured
yields a result whose content is the serialized error object with
`error = "SERVICE_NOT_CONFIGURED"`; and the graph then unconditionally
returns to the agent node for the next model call. -/
theorem tool_failures_recovered (cfg : Config)
    (oracle : ToolCallReq → InvokeResult) (last : Msg) (st : AgentSt)
    (tc : ToolCallReq) (svc m : String)
    (hknown : (ALL_TOOLS.find? (fun t => t.name == tc.name)).isSome = true)
    (hnc : oracle tc = InvokeResult.ok
      (tool_try svc (Except.error (Exc.serviceNotConfigured m))))
    (hlen : (_error_response "SERVICE_NOT_CONFIGURED" m svc []).length ≤
      cfg.tool_response_max_chars) :
    ((tool_node cfg oracle last).length = last.tool_calls.length ∧
      ∀ i (h1 : i < (tool_node cfg oracle last).length)
        (h2 : i < last.tool_calls.length),
        ((tool_node cfg oracle last).get ⟨i, h1⟩).role = Role.tool ∧
        ((tool_node cfg oracle last).get ⟨i, h1⟩).tool_call_id =
          (last.tool_calls.get ⟨i, h2⟩).id) ∧
    run_tool_call cfg oracle tc =
      toolMsg (_error_response "SERVICE_NOT_CONFIGURED" m svc []) tc.id ∧
    Step cfg (Node.tools, st) (Node.agent, tool_node_apply cfg oracle st) := by
  refine ⟨⟨List.length_map _ _, fun i h1 h2 => ?_⟩, ?_, Step.tool st oracle⟩
  · have hget : (tool_node cfg oracle last).get ⟨i, h1⟩ =
        run_tool_call cfg oracle (last.tool_calls.get ⟨i, h2⟩) := by
      simp [tool_node, List.get_eq_getElem]
    rw [hget]
    exact run_tool_call_shape cfg oracle _
  · have hne : ¬ (ALL_TOOLS.find? (fun t => t.name == tc.name)).isNone = true := by
      rcases hfind : ALL_TOOLS.find? (fun t => t.name == tc.name) with _ | t
      · rw [hfind] at hknown; exact absurd hknown (by decide)
      · rw [hfind]; simp
    unfold run_tool_call
    rw [if_neg hne]
    simp only [hnc]
    have htry : tool_try svc (Except.error (Exc.serviceNotConfigured m)) =
        _error_response "SERVICE_NOT_CONFIGURED" m svc [] := rfl
    rw [htry]
    unfold truncate_result
    rw [if_neg (by omega)]

/-- A tool oracle for the not-configured witness: every call reports that
the Metrics Explorer client is missing, via the per-tool error wrapper. -/
def c4_oracle : ToolCallReq → InvokeResult := fun _ =>
  InvokeResult.ok (tool_try "Metrics Explorer" (Except.error
    (Exc.serviceNotConfigured
      "Metrics Explorer is not configured for this organization")))

/-- A concrete metrics tool request. -/
def c4_tc : ToolCallReq := { id := "tc1", name := "metrics_get_overview", args := "" }

/-- The assistant message requesting the metrics tool. -/
def c4_last : Msg :=
  { role := Role.assistant, content := MsgContent.text "",
    tool_calls := [c4_tc], tool_call_id := "" }

/-- Turn state entering the tool node for the witness. -/
def c4_st : AgentSt := { messages := [c4_last], ai_call_count := 1 }

/-- Witness for the tool-failure theorem: a not-configured Metrics Explorer
call is answered by the serialized `SERVICE_NOT_CONFIGURED` object under
the default configuration. -/
theorem tool_failures_recovered_witness :
    run_tool_call cfg0 c4_oracle c4_tc =
      toolMsg (_error_response "SERVICE_NOT_CONFIGURED"
        "Metrics Explorer is not configured for this organization"
        "Metrics Explorer" []) "tc1" :=
  (tool_failures_recovered cfg0 c4_oracle c4_last c4_st c4_tc
    "Metrics Explorer"
    "Metrics Explorer is not configured for this organization"
    (by decide) rfl (by decide)).2.1

/-- No event yielded inside the streaming loop is terminal. -/
lemma emitFor_not_terminal (e : InEvent) :
    ∀ x ∈ emitFor e, isTerminal x = false := by
  intro x hx
  cases e with
  | chatModelStart => simp [emitFor] at hx; subst hx; rfl
  | chatModelStream c =>
      cases c with
      | none => simp [emitFor] at hx
      | some s => simp [emitFor] at hx; subst hx; rfl
  | chatModelEnd c => simp [emitFor] at hx
  | toolStart n => simp [emitFor] at hx; subst hx; rfl
  | toolEnd n o => simp [emitFor] at hx; subst hx; rfl
  | chainEnd c => simp [emitFor] at hx

/-- No event of the loop output is terminal. -/
lemma loop_out_not_terminal (evs : List InEvent) :
    ∀ x ∈ loop_out evs, isTerminal x = false := by
  intro x hx
  simp only [loop_out, List.mem_flatten, List.mem_map] at hx
  obtain ⟨l, ⟨e, _, rfl⟩, hxl⟩ := hx
  exact emitFor_not_terminal e x hxl

/-- C3: every turn of `run_agent` yields exactly one terminal event — one
`done` or one `error`, never both, never zero — and only an optional
`trace` event may follow it. -/
theorem run_agent_one_terminal (capture : Bool) (events : List InEvent)
    (o : RunOutcome) :
    ∃ pre t post,
      run_agent_events capture events o = pre ++ t :: post ∧
      (∀ x ∈ pre, isTerminal x = false) ∧
      isTerminal t = true ∧
      (∀ x ∈ post, x = OutEvent.trace) := by
  cases o with
  | failed k msg =>
      refine ⟨loop_out (events.take k), OutEvent.error msg, [], rfl,
        loop_out_not_terminal _, rfl, ?_⟩
      intro x hx
      simp at hx
  | ok =>
      refine ⟨loop_out events ++ [OutEvent.stats true],
        OutEvent.done (done_text false (events.foldl stepAcc accInit)),
        (if capture then [OutEvent.trace] else []), ?_, ?_, rfl, ?_⟩
      · simp [run_agent_events, List.append_assoc]
      · intro x hx
        rcases List.mem_append.mp hx with h | h
        · exact loop_out_not_terminal _ x h
        · simp at h; subst h; rfl
      · intro x hx
        cases capture with
        | false => simp at hx
        | true => simp at hx; exact hx
  | cancelled k =>
      refine ⟨loop_out (events.take k) ++ [OutEvent.stats true],
        OutEvent.done (done_text true ((events.take k).foldl stepAcc accInit)),
        (if capture then [OutEvent.trace] else []), ?_, ?_, rfl, ?_⟩
      · simp [run_agent_events, List.append_assoc]
      · intro x hx
        rcases List.mem_append.mp hx with h | h
        · exact loop_out_not_terminal _ x h
        · simp at h; subst h; rfl
      · intro x hx
        cases capture with
        | false => simp at hx
        | true => simp at hx; exact hx

/-- The number of messages to summarize is the number of existing messages
minus the recent window. -/
lemma olderOf_length (conv : Conversation) :
    (olderOf conv).length = (existingOf conv).length - RECENT_MESSAGE_COUNT := by
  simp [olderOf, List.length_take]

/-- At or above the threshold, `to_summarize` is never empty (the threshold
exceeds the recent window). -/
lemma olderOf_ne_empty (conv : Conversation)
    (h : MIN_MESSAGES_FOR_SUMMARY ≤ (existingOf conv).length) :
    (olderOf conv).isEmpty = false := by
  have hlen := olderOf_length conv
  have h6 : MIN_MESSAGES_FOR_SUMMARY = 6 := rfl
  have h4 : RECENT_MESSAGE_COUNT = 4 := rfl
  cases ho : olderOf conv with
  | nil =>
      exfalso
      have hzero : (olderOf conv).length = 0 := by rw [ho]; rfl
      omega
  | cons a l => rfl

/-- Below the threshold the compactor passes the converted history and
leaves the conversation row unchanged. -/
lemma build_small (s : List StoredMsg → String) (conv : Conversation)
    (h : (existingOf conv).length < MIN_MESSAGES_FOR_SUMMARY) :
    _build_conversation_history s conv =
      ((existingOf conv).filterMap _message_to_langchain, conv) := by
  unfold _build_conversation_history
  rw [if_pos h]

/-- At or above the threshold with a triggered regeneration guard, the
compactor regenerates the summary and stores the new coverage count. -/
lemma build_need (s : List StoredMsg → String) (conv : Conversation)
    (h6 : ¬ (existingOf conv).length < MIN_MESSAGES_FOR_SUMMARY)
    (hn : needSummaryOf conv = true) :
    _build_conversation_history s conv =
      (summary_message (some (s (olderOf conv))) ::
        (recentOf conv).filterMap _message_to_langchain,
       { conv with conversation_summary := some (s (olderOf conv)),
                   conversation_summary_message_count :=
                     some (olderOf conv).length }) := by
  have hne := olderOf_ne_empty conv (by omega)
  unfold _build_conversation_history
  rw [if_neg h6, if_neg (show ¬ (olderOf conv).isEmpty = true by simp [hne]),
    if_pos hn]

/-- At or above the threshold with an untriggered guard, the compactor
reuses the stored summary and leaves the conversation row unchanged. -/
lemma build_not_need (s : List StoredMsg → String) (conv : Conversation)
    (h6 : ¬ (existingOf conv).length < MIN_MESSAGES_FOR_SUMMARY)
    (hn : needSummaryOf conv = false) :
    _build_conversation_history s conv =
      (summary_message conv.conversation_summary ::
        (recentOf conv).filterMap _message_to_langchain, conv) := by
  have hne := olderOf_ne_empty conv (by omega)
  unfold _build_conversation_history
  rw [if_neg h6, if_neg (show ¬ (olderOf conv).isEmpty = true by simp [hne]),
    if_neg (show ¬ needSummaryOf conv = true by simp [hn])]

/-- Conversation-row invariant: a missing summary implies a missing
coverage count. -/
def ConvInv (conv : Conversation) : Prop :=
  conv.conversation_summary = none →
    conv.conversation_summary_message_count = none

/-- One compactor run preserves the conversation-row invariant. -/
lemma build_ConvInv (s : List StoredMsg → String) (conv : Conversation)
    (h : ConvInv conv) : ConvInv (_build_conversation_history s conv).2 := by
  by_cases h6 : (existingOf conv).length < MIN_MESSAGES_FOR_SUMMARY
  · rw [build_small s conv h6]; exact h
  · by_cases hn : needSummaryOf conv = true
    · rw [build_need s conv h6 hn]
      intro hcontra
      simp at hcontra
    · have hn2 : needSummaryOf conv = false := by
        revert hn; cases needSummaryOf conv <;> simp
      rw [build_not_need s conv h6 hn2]
      exact h

/-- The conversation-row invariant holds for every reachable conversation. -/
lemma reachableConv_inv (conv : Conversation) (h : ReachableConv conv) :
    ConvInv conv := by
  induction h with
  | init msgs => intro _; rfl
  | step s msgs _ ih => exact build_ConvInv s _ ih

/-- C8: across any sequence of compactor runs on one conversation, the
stored coverage count never decreases; whenever it changes, the new value
is the number of messages being summarized and strictly exceeds the old
value. -/
theorem coverage_count_monotone (conv : Conversation)
    (hreach : ReachableConv conv) (s : List StoredMsg → String)
    (msgs : List StoredMsg) (c c2 : Nat)
    (hc : conv.conversation_summary_message_count = some c)
    (hc2 : (_build_conversation_history s
        { conv with messages := msgs }).2.conversation_summary_message_count =
      some c2) :
    c ≤ c2 ∧ (c ≠ c2 → c < c2 ∧
      c2 = (olderOf { conv with messages := msgs }).length) := by
  have hinv := reachableConv_inv conv hreach
  have hsum : conv.conversation_summary ≠ none := by
    intro hnone
    rw [hinv hnone] at hc
    exact Option.noConfusion hc
  obtain ⟨y, ho⟩ : ∃ y, conv.conversation_summary = some y := by
    cases hh : conv.conversation_summary with
    | none => exact absurd hh hsum
    | some z => exact ⟨z, rfl⟩
  by_cases h6 : (existingOf { conv with messages := msgs }).length <
      MIN_MESSAGES_FOR_SUMMARY
  · rw [build_small s _ h6] at hc2
    simp only [] at hc2
    rw [hc] at hc2
    have hcc : c = c2 := Option.some.inj hc2
    exact ⟨le_of_eq hcc, fun hne => absurd hcc hne⟩
  · by_cases hn : needSummaryOf { conv with messages := msgs } = true
    · rw [build_need s _ h6 hn] at hc2
      simp only [] at hc2
      have hlen : (olderOf { conv with messages := msgs }).length = c2 :=
        Option.some.inj hc2
      have hlt : c < (olderOf { conv with messages := msgs }).length := by
        unfold needSummaryOf at hn
        simp [ho, hc] at hn
        exact hn
      exact ⟨by omega, fun _ => ⟨by omega, by omega⟩⟩
    · have hn2 : needSummaryOf { conv with messages := msgs } = false := by
        revert hn; cases needSummaryOf { conv with messages := msgs } <;> simp
      rw [build_not_need s _ h6 hn2] at hc2
      simp only [] at hc2
      rw [hc] at hc2
      have hcc : c = c2 := Option.some.inj hc2
      exact ⟨le_of_eq hcc, fun hne => absurd hcc hne⟩

/-- The summarizer oracle used by the coverage-count witness. -/
def c8_s : List StoredMsg → String := fun _ => "sum"

/-- Seven stored messages: three user/assistant exchanges plus the new
user message. -/
def c8_msgsA : List StoredMsg :=
  [ { role := "user", content := "m1" }, { role := "assistant", content := "m2" },
    { role := "user", content := "m3" }, { role := "assistant", content := "m4" },
    { role := "user", content := "m5" }, { role := "assistant", content := "m6" },
    { role := "user", content := "m7" } ]

/-- Nine stored messages extending `c8_msgsA` by one more exchange. -/
def c8_msgsB : List StoredMsg :=
  c8_msgsA ++
    [ { role := "assistant", content := "m8" }, { role := "user", content := "m9" } ]

/-- The conversation row after one compactor run over `c8_msgsA`. -/
def c8_conv1 : Conversation :=
  (_build_conversation_history c8_s
    { (⟨[], none, none⟩ : Conversation) with messages := c8_msgsA }).2

/-- Witness for the coverage-count monotonicity: a second compactor run,
over two more stored messages, raises the stored count from 2 to 4. -/
theorem coverage_count_monotone_witness :
    2 ≤ 4 ∧ ((2 : Nat) ≠ 4 → 2 < 4 ∧
      4 = (olderOf { c8_conv1 with messages := c8_msgsB }).length) :=
  coverage_count_monotone c8_conv1
    (ReachableConv.step c8_s c8_msgsA (ReachableConv.init []))
    c8_s c8_msgsB 2 4 (by decide) (by decide)

/-- A small conversation containing a stored tool-result message: one user
message, one tool message, and the new user message. -/
def c7_conv : Conversation :=
  { messages := [ { role := "user", content := "hi" },
                  { role := "tool", content := "result" },
                  { role := "user", content := "next" } ],
    conversation_summary := none,
    conversation_summary_message_count := none }

/-- C7 counterexample: below the threshold the built history is not
`existing` verbatim — the stored tool-role message is dropped, so the
history has fewer messages than `existing`. -/
theorem build_history_counterexample :
    (existingOf c7_conv).length < MIN_MESSAGES_FOR_SUMMARY ∧
    ((_build_conversation_history (fun _ => "") c7_conv).1).length ≠
      (existingOf c7_conv).length := by
  decide

/-- C7 amended: below the threshold the built history is the converted
user/assistant messages of `existing` in order (other roles dropped); at or
above it, the history is one synthetic summary system message followed by
the converted last `RECENT_MESSAGE_COUNT` messages, the summary being
regenerated exactly under the stored-summary guard and the row left
untouched otherwise. -/
theorem build_history_branches (s : List StoredMsg → String)
    (conv : Conversation) :
    ((existingOf conv).length < MIN_MESSAGES_FOR_SUMMARY →
      (_build_conversation_history s conv).1 =
        (existingOf conv).filterMap _message_to_langchain ∧
      (_build_conversation_history s conv).2 = conv) ∧
    (MIN_MESSAGES_FOR_SUMMARY ≤ (existingOf conv).length →
      (_build_conversation_history s conv).1 =
        summary_message
          ((_build_conversation_history s conv).2.conversation_summary) ::
          (recentOf conv).filterMap _message_to_langchain ∧
      (needSummaryOf conv = true →
        (_build_conversation_history s conv).2.conversation_summary =
          some (s (olderOf conv)) ∧
        (_build_conversation_history s conv).2.conversation_summary_message_count =
          some (olderOf conv).length) ∧
      (needSummaryOf conv = false →
        (_build_conversation_history s conv).2 = conv)) := by
  constructor
  · intro h
    rw [build_small s conv h]
    exact ⟨rfl, rfl⟩
  · intro h
    have h6 : ¬ (existingOf conv).length < MIN_MESSAGES_FOR_SUMMARY := by omega
    by_cases hn : needSummaryOf conv = true
    · rw [build_need s conv h6 hn]
      refine ⟨rfl, fun _ => ⟨rfl, rfl⟩, fun hcontra => ?_⟩
      rw [hn] at hcontra
      exact Bool.noConfusion hcontra
    · have hn2 : needSummaryOf conv = false := by
        revert hn; cases needSummaryOf conv <;> simp
      rw [build_not_need s conv h6 hn2]
      refine ⟨rfl, fun hcontra => ?_, fun _ => rfl⟩
      rw [hn2] at hcontra
      exact Bool.noConfusion hcontra

/-- The summarizer oracle used by the compaction witnesses. -/
def c7_s : List StoredMsg → String := fun _ => "S"

/-- A conversation with seven stored messages, above the threshold. -/
def c7w_conv : Conversation :=
  { messages := [ { role := "user", content := "a1" },
                  { role := "assistant", content := "a2" },
                  { role := "user", content := "a3" },
                  { role := "assistant", content := "a4" },
                  { role := "user", content := "a5" },
                  { role := "assistant", content := "a6" },
                  { role := "user", content := "a7" } ],
    conversation_summary := none,
    conversation_summary_message_count := none }

/-- Witness for the amended compaction claim: above the threshold the built
history is the summary message followed by the converted recent window. -/
theorem build_history_branches_witness :
    (_build_conversation_history c7_s c7w_conv).1 =
      summary_message
        ((_build_conversation_history c7_s c7w_conv).2.conversation_summary) ::
        (recentOf c7w_conv).filterMap _message_to_langchain :=
  ((build_history_branches c7_s c7w_conv).2 (by decide)).1

/-- Messages converted from stored rows carry the user or assistant role. -/
lemma mem_filterMap_role {l : List StoredMsg} {m : Msg}
    (hm : m ∈ l.filterMap _message_to_langchain) :
    m.role = Role.user ∨ m.role = Role.assistant := by
  rcases List.mem_filterMap.mp hm with ⟨a, _, ha⟩
  unfold _message_to_langchain at ha
  split_ifs at ha with h1 h2
  · have := Option.some.inj ha
    rw [← this]
    exact Or.inl rfl
  · have := Option.some.inj ha
    rw [← this]
    exact Or.inr rfl

/-- C10: stored messages whose role is neither user nor assistant are
dropped from the built history (no history message ever carries the tool
role), yet they count toward the threshold comparison, the older/recent
split, and the stored coverage count. -/
theorem nonchat_roles_dropped_but_counted :
    (∀ m : StoredMsg, m.role ≠ "user" → m.role ≠ "assistant" →
      _message_to_langchain m = none) ∧
    (∀ (s : List StoredMsg → String) (conv : Conversation) (m : Msg),
      m ∈ (_build_conversation_history s conv).1 → m.role ≠ Role.tool) ∧
    (∀ (s : List StoredMsg → String) (conv : Conversation),
      MIN_MESSAGES_FOR_SUMMARY ≤ (existingOf conv).length →
      ∃ rest, (_build_conversation_history s conv).1 =
        summary_message
          ((_build_conversation_history s conv).2.conversation_summary) :: rest) ∧
    (∀ (s : List StoredMsg → String) (conv : Conversation),
      MIN_MESSAGES_FOR_SUMMARY ≤ (existingOf conv).length →
      needSummaryOf conv = true →
      (_build_conversation_history s conv).2.conversation_summary_message_count =
        some (olderOf conv).length) := by
  refine ⟨?_, ?_, ?_, ?_⟩
  · intro m h1 h2
    unfold _message_to_langchain
    rw [if_neg (by simp [h1]), if_neg (by simp [h2])]
  · intro s conv m hm
    by_cases h6 : (existingOf conv).length < MIN_MESSAGES_FOR_SUMMARY
    · rw [build_small s conv h6] at hm
      rcases mem_filterMap_role hm with h | h <;> simp [h]
    · by_cases hn : needSummaryOf conv = true
      · rw [build_need s conv h6 hn] at hm
        rcases List.mem_cons.mp hm with rfl | hm2
        · simp [summary_message]
        · rcases mem_filterMap_role hm2 with h | h <;> simp [h]
      · have hn2 : needSummaryOf conv = false := by
          revert hn; cases needSummaryOf conv <;> simp
        rw [build_not_need s conv h6 hn2] at hm
        rcases List.mem_cons.mp hm with rfl | hm2
        · simp [summary_message]
        · rcases mem_filterMap_role hm2 with h | h <;> simp [h]
  · intro s conv h
    have h6 : ¬ (existingOf conv).length < MIN_MESSAGES_FOR_SUMMARY := by omega
    by_cases hn : needSummaryOf conv = true
    · rw [build_need s conv h6 hn]
      exact ⟨(recentOf conv).filterMap _message_to_langchain, rfl⟩
    · have hn2 : needSummaryOf conv = false := by
        revert hn; cases needSummaryOf conv <;> simp
      rw [build_not_need s conv h6 hn2]
      exact ⟨(recentOf conv).filterMap _message_to_langchain, rfl⟩
  · intro s conv h hn
    have h6 : ¬ (existingOf conv).length < MIN_MESSAGES_FOR_SUMMARY := by omega
    rw [build_need s conv h6 hn]

/-- A conversation whose six existing messages are mostly tool results:
only one user message, yet the threshold is met. -/
def c10_conv : Conversation :=
  { messages := [ { role := "user", content := "q" },
                  { role := "tool", content := "t1" },
                  { role := "tool", content := "t2" },
                  { role := "tool", content := "t3" },
                  { role := "tool", content := "t4" },
                  { role := "tool", content := "t5" },
                  { role := "user", content := "new" } ],
    conversation_summary := none,
    conversation_summary_message_count := none }

/-- Witness for the role-dropping claim: a tool row converts to nothing,
and a conversation of mostly tool rows still crosses the threshold and
stores a coverage count that includes them. -/
theorem nonchat_roles_dropped_but_counted_witness :
    _message_to_langchain { role := "tool", content := "t1" } = none ∧
    (_build_conversation_history c7_s c10_conv).2.conversation_summary_message_count =
      some (olderOf c10_conv).length :=
  ⟨nonchat_roles_dropped_but_counted.1 { role := "tool", content := "t1" }
      (by decide) (by decide),
   nonchat_roles_dropped_but_counted.2.2.2 c7_s c10_conv (by decide) (by decide)⟩

end FixAI
